import Mathlib

/-! nixpy, PyExceptions.cpp.

A shallow embedding of the exception-translation glue of nixpy
(`src/PyExceptions.cpp`) and of the small part of its two collaborators it
touches:

* the CPython 3 error indicator, written by `PyErr_SetString`, which decodes
  its `const char*` argument as UTF-8 and fails on bytes that are not;
* the Boost.Python chain of exception translators, extended by
  `register_exception_translator` and run when a wrapped call throws.

State is passed explicitly: the error indicator is a value of type
`PyErrIndicator`, the translator chain a list of handlers in registration
order.  A `const char*` is represented by the bytes that precede its
terminating NUL, a `CString`; their number is what `strlen` counts.  The
classes `nix::OutOfBounds` and `nix::DuplicateName` are unrelated types, so a
`catch` clause for one never matches an object of the other.
-/

set_option autoImplicit false

namespace nixpy

/-! ## C strings and UTF-8 -/

/-- A `const char*` string: the bytes, each a number from 1 to 255, that precede
the terminating NUL. -/
abbrev CString := List Nat

/-- The C library call `std::strlen`: the number of bytes before the terminating
NUL. -/
def strlen (s : CString) : Nat :=
  s.length

/-- A UTF-8 continuation byte, `10xxxxxx`. -/
def isContinuation (b : Nat) : Bool :=
  0x80 ≤ b && b < 0xC0

/-- The UTF-8 encoding of one code point. -/
def utf8EncodeChar (c : Nat) : List Nat :=
  if c < 0x80 then [c]
  else if c < 0x800 then [0xC0 + c / 0x40, 0x80 + c % 0x40]
  else if c < 0x10000 then [0xE0 + c / 0x1000, 0x80 + c / 0x40 % 0x40, 0x80 + c % 0x40]
  else [0xF0 + c / 0x40000, 0x80 + c / 0x1000 % 0x40, 0x80 + c / 0x40 % 0x40, 0x80 + c % 0x40]

/-- The UTF-8 encoding of a sequence of characters. -/
def utf8EncodeChars : List Char → List Nat
  | [] => []
  | c :: cs => utf8EncodeChar c.toNat ++ utf8EncodeChars cs

/-- The bytes of a text as a C string: its UTF-8 encoding. -/
def utf8Encode (s : String) : CString :=
  utf8EncodeChars s.data

/-- The strict UTF-8 decoder of the host runtime: `none` on a byte that cannot
start a character, a missing or malformed continuation byte, an overlong
form, a surrogate, or a code point above U+10FFFF. -/
def utf8DecodeChars : List Nat → Option (List Char)
  | [] => some []
  | b0 :: bs =>
    if b0 < 0x80 then
      (utf8DecodeChars bs).map (Char.ofNat b0 :: ·)
    else if b0 < 0xC2 then none
    else if b0 < 0xE0 then
      match bs with
      | b1 :: bs1 =>
        if isContinuation b1 then
          (utf8DecodeChars bs1).map (Char.ofNat ((b0 - 0xC0) * 0x40 + (b1 - 0x80)) :: ·)
        else none
      | _ => none
    else if b0 < 0xF0 then
      match bs with
      | b1 :: b2 :: bs2 =>
        let c := (b0 - 0xE0) * 0x1000 + (b1 - 0x80) * 0x40 + (b2 - 0x80)
        if isContinuation b1 && isContinuation b2 && 0x800 ≤ c &&
            !(0xD800 ≤ c && c < 0xE000) then
          (utf8DecodeChars bs2).map (Char.ofNat c :: ·)
        else none
      | _ => none
    else if b0 < 0xF5 then
      match bs with
      | b1 :: b2 :: b3 :: bs3 =>
        let c := (b0 - 0xF0) * 0x40000 + (b1 - 0x80) * 0x1000 + (b2 - 0x80) * 0x40 + (b3 - 0x80)
        if isContinuation b1 && isContinuation b2 && isContinuation b3 && 0x10000 ≤ c &&
            c < 0x110000 then
          (utf8DecodeChars bs3).map (Char.ofNat c :: ·)
        else none
      | _ => none
    else none

/-- The C API call `PyUnicode_FromString` on a C string: the text the bytes
encode, `none` when they are not valid UTF-8. -/
def utf8Decode (bs : CString) : Option String :=
  (utf8DecodeChars bs).map String.mk

/-! ## Host runtime: the CPython error indicator -/

/-- Exception classes of the host runtime, the `PyExc_*` objects of the C API
that the binding layer (directly or through Boost.Python) can raise. -/
inductive PyExcClass
  | RuntimeError
  | IndexError
  | ValueError
  | OverflowError
  | MemoryError
  | UnicodeDecodeError
  deriving DecidableEq

/-- The C API object `PyExc_RuntimeError`. -/
abbrev PyExc_RuntimeError : PyExcClass := PyExcClass.RuntimeError

/-- The value of a pending host error: a message text, or, for the
`UnicodeDecodeError` of the UTF-8 codec, the bytes that could not be decoded
(its `object`; position and reason are determined by it). -/
inductive PyValue
  | str (text : String)
  | undecodable (object : CString)
  deriving DecidableEq

/-- A pending host error: exception class and value. -/
structure HostError where
  type : PyExcClass
  value : PyValue
  deriving DecidableEq

/-- The message text of a host error, when its value is one. -/
def HostError.message (h : HostError) : Option String :=
  match h.value with
  | PyValue.str text => some text
  | PyValue.undecodable _ => none

/-- The per-thread error indicator of the host runtime: either clear or holding
one pending error. -/
abbrev PyErrIndicator := Option HostError

/-- The C API call `PyErr_SetString(type, message)`. The message is decoded as
UTF-8; when that succeeds the indicator is replaced by an error of class
`type` whose value is the decoded text, and when it fails the
`UnicodeDecodeError` raised by the decoder is what stays pending. -/
def PyErr_SetString (type : PyExcClass) (message : CString)
    (_indicator : PyErrIndicator) : PyErrIndicator :=
  match utf8Decode message with
  | some text => some { type := type, value := PyValue.str text }
  | none => some { type := PyExcClass.UnicodeDecodeError, value := PyValue.undecodable message }

namespace nix

/-- An object of class `nix::OutOfBounds`: the C string returned by `what()` and,
in `info`, everything else the object carries. -/
structure OutOfBounds (ι : Type) where
  what : CString
  info : ι

/-- An object of class `nix::DuplicateName`: the C string returned by `what()`
and, in `info`, everything else the object carries. -/
structure DuplicateName (ι : Type) where
  what : CString
  info : ι

end nix

/-- The static type an exception translator is registered for, the
`ExceptionType` template argument of `register_exception_translator`. Types
other than the two of `nix` are told apart by a tag. -/
inductive ExceptionType
  | OutOfBounds
  | DuplicateName
  | other (tag : Nat)
  deriving DecidableEq

/-- A thrown C++ exception as seen by a `catch` clause: an object that is a
`nix::OutOfBounds`, one that is a `nix::DuplicateName`, or an object of an
unrelated type. -/
inductive NativeError (ι : Type)
  | OutOfBounds (e : nix.OutOfBounds ι)
  | DuplicateName (e : nix.DuplicateName ι)
  | other (tag : Nat) (e : ι)

/-! ## Boost.Python: the chain of exception translators -/

/-- One registered translator: the exception type it catches together with the
translate function, which receives the caught object and acts on the error
indicator. -/
inductive Handler (ι : Type)
  | OutOfBounds (translate : nix.OutOfBounds ι → PyErrIndicator → PyErrIndicator)
  | DuplicateName (translate : nix.DuplicateName ι → PyErrIndicator → PyErrIndicator)
  | other (tag : Nat) (translate : ι → PyErrIndicator → PyErrIndicator)

/-- The exception type a handler is keyed on. -/
def Handler.key {ι : Type} : Handler ι → ExceptionType
  | .OutOfBounds _ => ExceptionType.OutOfBounds
  | .DuplicateName _ => ExceptionType.DuplicateName
  | .other tag _ => ExceptionType.other tag

/-- The translator chain, in registration order (head registered first). -/
abbrev Registry (ι : Type) := List (Handler ι)

/-- The `catch (ExceptionType const& e) { translate(e); return true; }` clause of
one handler, tried on a thrown exception: `some` indicator when the clause
matches and `translate` has run, `none` when the exception passes by. -/
def translate_exception {ι : Type} (h : Handler ι) (x : NativeError ι)
    (s : PyErrIndicator) : Option PyErrIndicator :=
  match h, x with
  | .OutOfBounds translate, .OutOfBounds e => some (translate e s)
  | .DuplicateName translate, .DuplicateName e => some (translate e s)
  | .other tag translate, .other tag' e => if tag = tag' then some (translate e s) else none
  | _, _ => none

/-- Running the chain on a wrapped call that throws `x`. Each handler wraps the
handlers registered after it in its `try` block, so the exception reaches the
most recently registered handler first and an earlier one only when every
later one let it pass. `none`: no registered translator caught the exception,
it leaves the chain untranslated. -/
def handle_exception {ι : Type} : Registry ι → NativeError ι → PyErrIndicator →
    Option PyErrIndicator
  | [], _, _ => none
  | h :: next, x, s =>
    match handle_exception next x s with
    | some s' => some s'
    | none => translate_exception h x s

/-- The call `register_exception_translator<ExceptionType>(translate)`: the new
handler is linked in at the tail of the chain. -/
def register_exception_translator {ι : Type} (h : Handler ι) (chain : Registry ι) :
    Registry ι :=
  chain ++ [h]

/-! ## PyExceptions.cpp -/

/-- The source function `emptyMessage`. -/
def emptyMessage (message : CString) : Bool :=
  strlen message == 0

/-- The source function `translateOutOfBounds`. -/
def translateOutOfBounds {ι : Type} (e : nix.OutOfBounds ι) (s : PyErrIndicator) :
    PyErrIndicator :=
  PyErr_SetString PyExc_RuntimeError e.what s

/-- The source function `translateDuplicateName`. -/
def translateDuplicateName {ι : Type} (e : nix.DuplicateName ι) (s : PyErrIndicator) :
    PyErrIndicator :=
  PyErr_SetString PyExc_RuntimeError e.what s

/-- The source function `PyException::do_export`: two registrations, first the
translator for `nix::OutOfBounds`, then the one for `nix::DuplicateName`. -/
def PyException.do_export {ι : Type} (chain : Registry ι) : Registry ι :=
  register_exception_translator (Handler.DuplicateName translateDuplicateName)
    (register_exception_translator (Handler.OutOfBounds translateOutOfBounds) chain)

/-! ## Auxiliary facts -/

theorem toNat_valid (c : Char) :
    c.toNat < 0xD800 ∨ (0xDFFF < c.toNat ∧ c.toNat < 0x110000) :=
  c.valid

theorem toNat_ofNat_of_valid (n : Nat) (h : n < 0xD800 ∨ (0xDFFF < n ∧ n < 0x110000)) :
    (Char.ofNat n).toNat = n := by
  have hv : n.isValidChar := h
  simp only [Char.ofNat, hv, dite_true]
  rfl

theorem utf8DecodeChars_cons (b0 : Nat) (bs : List Nat) :
    utf8DecodeChars (b0 :: bs) =
    if b0 < 0x80 then
      (utf8DecodeChars bs).map (Char.ofNat b0 :: ·)
    else if b0 < 0xC2 then none
    else if b0 < 0xE0 then
      match bs with
      | b1 :: bs1 =>
        if isContinuation b1 then
          (utf8DecodeChars bs1).map (Char.ofNat ((b0 - 0xC0) * 0x40 + (b1 - 0x80)) :: ·)
        else none
      | _ => none
    else if b0 < 0xF0 then
      match bs with
      | b1 :: b2 :: bs2 =>
        let c := (b0 - 0xE0) * 0x1000 + (b1 - 0x80) * 0x40 + (b2 - 0x80)
        if isContinuation b1 && isContinuation b2 && 0x800 ≤ c && !(0xD800 ≤ c && c < 0xE000) then
          (utf8DecodeChars bs2).map (Char.ofNat c :: ·)
        else none
      | _ => none
    else if b0 < 0xF5 then
      match bs with
      | b1 :: b2 :: b3 :: bs3 =>
        let c := (b0 - 0xF0) * 0x40000 + (b1 - 0x80) * 0x1000 + (b2 - 0x80) * 0x40 + (b3 - 0x80)
        if isContinuation b1 && isContinuation b2 && isContinuation b3 && 0x10000 ≤ c && c < 0x110000 then
          (utf8DecodeChars bs3).map (Char.ofNat c :: ·)
        else none
      | _ => none
    else none := by
  cases bs with
  | nil => rfl
  | cons b1 bs =>
    cases bs with
    | nil => rfl
    | cons b2 bs =>
      cases bs with
      | nil => rfl
      | cons b3 bs => rfl

theorem utf8DecodeChars_encodeChar (c : Char) (rest : List Nat) :
    utf8DecodeChars (utf8EncodeChar c.toNat ++ rest) =
      (utf8DecodeChars rest).map (c :: ·) := by
  have hv := toNat_valid c
  have hc : Char.ofNat c.toNat = c := Char.ofNat_toNat c
  generalize c.toNat = n at hv hc
  unfold utf8EncodeChar
  by_cases h1 : n < 0x80
  · rw [if_pos h1, List.singleton_append, utf8DecodeChars_cons, if_pos h1, hc]
  · rw [if_neg h1]
    by_cases h2 : n < 0x800
    · have e : (0xC0 + n / 0x40 - 0xC0) * 0x40 + (0x80 + n % 0x40 - 0x80) = n := by omega
      have a1 : ¬ (0xC0 + n / 0x40 < 0x80) := by omega
      have a2 : ¬ (0xC0 + n / 0x40 < 0xC2) := by omega
      have a3 : 0xC0 + n / 0x40 < 0xE0 := by omega
      have a4 : isContinuation (0x80 + n % 0x40) = true := by
        simp [isContinuation]; omega
      rw [if_pos h2]
      show utf8DecodeChars ((0xC0 + n / 0x40) :: (0x80 + n % 0x40) :: rest) = _
      rw [utf8DecodeChars_cons, if_neg a1, if_neg a2, if_pos a3]
      show (if isContinuation (0x80 + n % 0x40) = true then _ else _) = _
      rw [if_pos a4, e, hc]
    · rw [if_neg h2]
      by_cases h3 : n < 0x10000
      · have e : (0xE0 + n / 0x1000 - 0xE0) * 0x1000 + (0x80 + n / 0x40 % 0x40 - 0x80) * 0x40 +
            (0x80 + n % 0x40 - 0x80) = n := by omega
        have a1 : ¬ (0xE0 + n / 0x1000 < 0x80) := by omega
        have a2 : ¬ (0xE0 + n / 0x1000 < 0xC2) := by omega
        have a3 : ¬ (0xE0 + n / 0x1000 < 0xE0) := by omega
        have a4 : 0xE0 + n / 0x1000 < 0xF0 := by omega
        have a5 : (isContinuation (0x80 + n / 0x40 % 0x40) && isContinuation (0x80 + n % 0x40) &&
            decide (0x800 ≤ n) && !(decide (0xD800 ≤ n) && decide (n < 0xE000))) = true := by
          simp [isContinuation]; omega
        rw [if_pos h3]
        show utf8DecodeChars ((0xE0 + n / 0x1000) :: (0x80 + n / 0x40 % 0x40) ::
          (0x80 + n % 0x40) :: rest) = _
        rw [utf8DecodeChars_cons, if_neg a1, if_neg a2, if_neg a3, if_pos a4]
        simp only [e]
        rw [if_pos a5, hc]
      · have e : (0xF0 + n / 0x40000 - 0xF0) * 0x40000 + (0x80 + n / 0x1000 % 0x40 - 0x80) * 0x1000 +
            (0x80 + n / 0x40 % 0x40 - 0x80) * 0x40 + (0x80 + n % 0x40 - 0x80) = n := by omega
        have a1 : ¬ (0xF0 + n / 0x40000 < 0x80) := by omega
        have a2 : ¬ (0xF0 + n / 0x40000 < 0xC2) := by omega
        have a3 : ¬ (0xF0 + n / 0x40000 < 0xE0) := by omega
        have a4 : ¬ (0xF0 + n / 0x40000 < 0xF0) := by omega
        have a5 : 0xF0 + n / 0x40000 < 0xF5 := by omega
        have a6 : (isContinuation (0x80 + n / 0x1000 % 0x40) &&
            isContinuation (0x80 + n / 0x40 % 0x40) && isContinuation (0x80 + n % 0x40) &&
            decide (0x10000 ≤ n) && decide (n < 0x110000)) = true := by
          simp [isContinuation]; omega
        rw [if_neg h3]
        show utf8DecodeChars ((0xF0 + n / 0x40000) :: (0x80 + n / 0x1000 % 0x40) ::
          (0x80 + n / 0x40 % 0x40) :: (0x80 + n % 0x40) :: rest) = _
        rw [utf8DecodeChars_cons, if_neg a1, if_neg a2, if_neg a3, if_neg a4, if_pos a5]
        simp only [e]
        rw [if_pos a6, hc]

theorem utf8DecodeChars_encodeChars (cs : List Char) :
    utf8DecodeChars (utf8EncodeChars cs) = some cs := by
  induction cs with
  | nil => rfl
  | cons c cs ih =>
    show utf8DecodeChars (utf8EncodeChar c.toNat ++ utf8EncodeChars cs) = _
    rw [utf8DecodeChars_encodeChar, ih]
    rfl

theorem utf8Decode_utf8Encode (s : String) : utf8Decode (utf8Encode s) = some s := by
  unfold utf8Decode utf8Encode
  rw [utf8DecodeChars_encodeChars]
  rfl

theorem utf8EncodeChars_cons (c : Char) (cs : List Char) :
    utf8EncodeChars (c :: cs) = utf8EncodeChar c.toNat ++ utf8EncodeChars cs := rfl

theorem isContinuation_iff (b : Nat) : isContinuation b = true ↔ 0x80 ≤ b ∧ b < 0xC0 := by
  simp [isContinuation]

theorem utf8EncodeChars_of_decode (n : Nat) : ∀ (bs : List Nat), bs.length ≤ n →
    ∀ cs : List Char, utf8DecodeChars bs = some cs → utf8EncodeChars cs = bs := by
  induction n with
  | zero =>
    intro bs hlen cs h
    have hbs : bs = [] := List.length_eq_zero.mp (Nat.le_zero.mp hlen)
    subst hbs
    have hcs : cs = [] := (Option.some.inj h).symm
    subst hcs
    rfl
  | succ n ih =>
    intro bs hlen cs h
    cases bs with
    | nil =>
      have hcs : cs = [] := (Option.some.inj h).symm
      subst hcs
      rfl
    | cons b0 bs =>
      rw [utf8DecodeChars_cons] at h
      simp only [List.length_cons] at hlen
      split at h
      · rename_i h1
        obtain ⟨cs', hd, rfl⟩ := Option.map_eq_some'.mp h
        have hrec := ih bs (by omega) cs' hd
        rw [utf8EncodeChars_cons, hrec, toNat_ofNat_of_valid b0 (by omega)]
        simp [utf8EncodeChar, h1]
      · rename_i h1
        split at h
        · exact absurd h (by simp)
        · rename_i h2
          split at h
          · rename_i h3
            split at h
            · rename_i b1 bs1
              split at h
              · rename_i hc1
                obtain ⟨cs', hd, rfl⟩ := Option.map_eq_some'.mp h
                rw [isContinuation_iff] at hc1
                simp only [List.length_cons] at hlen
                have hrec := ih bs1 (by omega) cs' hd
                rw [utf8EncodeChars_cons, hrec, toNat_ofNat_of_valid _ (by omega)]
                have q1 : ¬ ((b0 - 0xC0) * 0x40 + (b1 - 0x80) < 0x80) := by omega
                have q2 : (b0 - 0xC0) * 0x40 + (b1 - 0x80) < 0x800 := by omega
                have e1 : 0xC0 + ((b0 - 0xC0) * 0x40 + (b1 - 0x80)) / 0x40 = b0 := by omega
                have e2 : 0x80 + ((b0 - 0xC0) * 0x40 + (b1 - 0x80)) % 0x40 = b1 := by omega
                unfold utf8EncodeChar
                rw [if_neg q1, if_pos q2, e1, e2]
                rfl
              · exact absurd h (by simp)
            · exact absurd h (by simp)
          · rename_i h3
            split at h
            · rename_i h4
              split at h
              · rename_i b1 b2 bs2
                simp only [] at h
                split at h
                · rename_i hc
                  obtain ⟨cs', hd, rfl⟩ := Option.map_eq_some'.mp h
                  simp only [Bool.and_eq_true, Bool.not_eq_true', Bool.and_eq_false_iff,
                    decide_eq_true_eq, decide_eq_false_iff_not, isContinuation_iff] at hc
                  simp only [List.length_cons] at hlen
                  have hrec := ih bs2 (by omega) cs' hd
                  rw [utf8EncodeChars_cons, hrec, toNat_ofNat_of_valid _ (by omega)]
                  generalize hcp : (b0 - 0xE0) * 0x1000 + (b1 - 0x80) * 0x40 + (b2 - 0x80) = c at hc
                  have q1 : ¬ (c < 0x80) := by omega
                  have q2 : ¬ (c < 0x800) := by omega
                  have q3 : c < 0x10000 := by omega
                  have e1 : 0xE0 + c / 0x1000 = b0 := by omega
                  have e2 : 0x80 + c / 0x40 % 0x40 = b1 := by omega
                  have e3 : 0x80 + c % 0x40 = b2 := by omega
                  unfold utf8EncodeChar
                  rw [if_neg q1, if_neg q2, if_pos q3, e1, e2, e3]
                  rfl
                · exact absurd h (by simp)
              · exact absurd h (by simp)
            · rename_i h4
              split at h
              · rename_i h5
                split at h
                · rename_i b1 b2 b3 bs3
                  simp only [] at h
                  split at h
                  · rename_i hc
                    obtain ⟨cs', hd, rfl⟩ := Option.map_eq_some'.mp h
                    simp only [Bool.and_eq_true, decide_eq_true_eq, isContinuation_iff] at hc
                    simp only [List.length_cons] at hlen
                    have hrec := ih bs3 (by omega) cs' hd
                    rw [utf8EncodeChars_cons, hrec, toNat_ofNat_of_valid _ (by omega)]
                    generalize hcp : (b0 - 0xF0) * 0x40000 + (b1 - 0x80) * 0x1000 +
                      (b2 - 0x80) * 0x40 + (b3 - 0x80) = c at hc
                    have q1 : ¬ (c < 0x80) := by omega
                    have q2 : ¬ (c < 0x800) := by omega
                    have q3 : ¬ (c < 0x10000) := by omega
                    have e1 : 0xF0 + c / 0x40000 = b0 := by omega
                    have e2 : 0x80 + c / 0x1000 % 0x40 = b1 := by omega
                    have e3 : 0x80 + c / 0x40 % 0x40 = b2 := by omega
                    have e4 : 0x80 + c % 0x40 = b3 := by omega
                    unfold utf8EncodeChar
                    rw [if_neg q1, if_neg q2, if_neg q3, e1, e2, e3, e4]
                    rfl
                  · exact absurd h (by simp)
                · exact absurd h (by simp)
              · exact absurd h (by simp)

theorem utf8Encode_of_utf8Decode (bs : List Nat) (s : String)
    (h : utf8Decode bs = some s) : utf8Encode s = bs := by
  unfold utf8Decode at h
  obtain ⟨cs, hd, rfl⟩ := Option.map_eq_some'.mp h
  exact utf8EncodeChars_of_decode bs.length bs (Nat.le_refl _) cs hd

theorem utf8EncodeChar_ne_nil (c : Nat) : utf8EncodeChar c ≠ [] := by
  unfold utf8EncodeChar
  split
  · simp
  · split
    · simp
    · split <;> simp

theorem utf8Encode_eq_nil (s : String) : utf8Encode s = [] ↔ s = "" := by
  cases s with
  | mk cs =>
    cases cs with
    | nil => exact ⟨fun _ => rfl, fun _ => rfl⟩
    | cons c cs =>
      constructor
      · intro h
        have h' : utf8EncodeChar c.toNat ++ utf8EncodeChars cs = [] := h
        exact absurd (List.append_eq_nil.mp h').1 (utf8EncodeChar_ne_nil _)
      · intro h
        exact absurd (congrArg String.data h) (by simp)

theorem length_eq_zero_iff_eq_empty (s : String) : s.length = 0 ↔ s = "" := by
  cases s with
  | mk cs =>
    constructor
    · intro h
      have hcs : cs = [] := List.length_eq_zero.mp h
      subst hcs; rfl
    · intro h; rw [h]; rfl

/-- On the bytes of a text, PyErr_SetString sets an error of the requested class
with that text. -/
theorem PyErr_SetString_utf8Encode (type : PyExcClass) (text : String)
    (s : PyErrIndicator) :
    PyErr_SetString type (utf8Encode text) s = some ⟨type, PyValue.str text⟩ := by
  unfold PyErr_SetString
  rw [utf8Decode_utf8Encode]

/-- On bytes that decode, PyErr_SetString sets an error of the requested class
with the decoded text. -/
theorem PyErr_SetString_of_decode (type : PyExcClass) (m : CString) (text : String)
    (s : PyErrIndicator) (h : utf8Decode m = some text) :
    PyErr_SetString type m s = some ⟨type, PyValue.str text⟩ := by
  unfold PyErr_SetString
  rw [h]

/-- A handler registered last is the first to see the exception; the rest of the
chain is consulted only when it lets the exception pass. -/
theorem handle_exception_register {ι : Type} (h : Handler ι) (chain : Registry ι)
    (x : NativeError ι) (s : PyErrIndicator) :
    handle_exception (register_exception_translator h chain) x s =
      match translate_exception h x s with
      | some s' => some s'
      | none => handle_exception chain x s := by
  show handle_exception (chain ++ [h]) x s = _
  induction chain with
  | nil =>
    show (match handle_exception [] x s with
      | some s' => some s'
      | none => translate_exception h x s) = _
    cases translate_exception h x s <;> rfl
  | cons c rest ih =>
    show (match handle_exception (rest ++ [h]) x s with
      | some s' => some s'
      | none => translate_exception c x s) = _
    rw [ih]
    cases translate_exception h x s <;> rfl

theorem do_export_eq_append {ι : Type} (chain : Registry ι) :
    PyException.do_export chain =
      chain ++ [Handler.OutOfBounds translateOutOfBounds,
        Handler.DuplicateName translateDuplicateName] := by
  simp [PyException.do_export, register_exception_translator]

/-! ## The translators -/

/-- Counterexample to C1 as stated: on an out-of-bounds error whose what() is the
two bytes FF FE, which are not UTF-8, translateOutOfBounds leaves the decoder's
UnicodeDecodeError pending; the host error carries no message text. -/
theorem translateOutOfBounds_undecodable :
    translateOutOfBounds (⟨[0xFF, 0xFE], 0⟩ : nix.OutOfBounds Nat) none =
      some ⟨PyExcClass.UnicodeDecodeError, PyValue.undecodable [0xFF, 0xFE]⟩ ∧
    Option.bind (translateOutOfBounds (⟨[0xFF, 0xFE], 0⟩ : nix.OutOfBounds Nat) none)
      HostError.message = none := by
  decide

/-- C1, amended: for every message that is valid UTF-8, the empty one included,
translateOutOfBounds on an out-of-bounds error whose what() is that message
signals a runtime error with exactly that message, untransformed: the text of
the host error is the text the bytes encode, and its bytes are the bytes of
what(). For "index 5 out of range [0,3)" the host error is a runtime error with
that text. -/
theorem translateOutOfBounds_message (ι : Type) (text : String) (e : nix.OutOfBounds ι)
    (i : ι) (s : PyErrIndicator) :
    translateOutOfBounds ⟨utf8Encode text, i⟩ s =
      some ⟨PyExc_RuntimeError, PyValue.str text⟩ ∧
    (∀ t : String, utf8Decode e.what = some t →
      translateOutOfBounds e s = some ⟨PyExc_RuntimeError, PyValue.str t⟩ ∧
      utf8Encode t = e.what) ∧
    translateOutOfBounds ⟨[], i⟩ s = some ⟨PyExc_RuntimeError, PyValue.str ""⟩ ∧
    utf8Encode "index 5 out of range [0,3)" =
      [105, 110, 100, 101, 120, 32, 53, 32, 111, 117, 116, 32, 111, 102, 32,
        114, 97, 110, 103, 101, 32, 91, 48, 44, 51, 41] ∧
    translateOutOfBounds
        ⟨[105, 110, 100, 101, 120, 32, 53, 32, 111, 117, 116, 32, 111, 102, 32,
        114, 97, 110, 103, 101, 32, 91, 48, 44, 51, 41], i⟩ s =
      some ⟨PyExc_RuntimeError, PyValue.str "index 5 out of range [0,3)"⟩ := by
  refine ⟨PyErr_SetString_utf8Encode _ _ _, ?_, rfl, by decide, ?_⟩
  · intro t ht
    exact ⟨PyErr_SetString_of_decode _ _ _ _ ht, utf8Encode_of_utf8Decode _ _ ht⟩
  · rfl

/-- Counterexample to C2 as stated: on a duplicate-name error whose what() is the
single byte C3, a truncated UTF-8 sequence, translateDuplicateName leaves the
decoder's UnicodeDecodeError pending; the host error carries no message text. -/
theorem translateDuplicateName_undecodable :
    translateDuplicateName (⟨[0xC3], 0⟩ : nix.DuplicateName Nat) none =
      some ⟨PyExcClass.UnicodeDecodeError, PyValue.undecodable [0xC3]⟩ ∧
    Option.bind (translateDuplicateName (⟨[0xC3], 0⟩ : nix.DuplicateName Nat) none)
      HostError.message = none := by
  decide

/-- C2, amended: for every message that is valid UTF-8, the empty one included,
translateDuplicateName on a duplicate-name error whose what() is that message
signals a runtime error with exactly that message, untransformed: the text of
the host error is the text the bytes encode, and its bytes are the bytes of
what(). For "name 'foo' already exists" the host error is a runtime error with
that text. -/
theorem translateDuplicateName_message (ι : Type) (text : String)
    (e : nix.DuplicateName ι) (i : ι) (s : PyErrIndicator) :
    translateDuplicateName ⟨utf8Encode text, i⟩ s =
      some ⟨PyExc_RuntimeError, PyValue.str text⟩ ∧
    (∀ t : String, utf8Decode e.what = some t →
      translateDuplicateName e s = some ⟨PyExc_RuntimeError, PyValue.str t⟩ ∧
      utf8Encode t = e.what) ∧
    translateDuplicateName ⟨[], i⟩ s = some ⟨PyExc_RuntimeError, PyValue.str ""⟩ ∧
    utf8Encode "name 'foo' already exists" =
      [110, 97, 109, 101, 32, 39, 102, 111, 111, 39, 32, 97, 108, 114, 101,
        97, 100, 121, 32, 101, 120, 105, 115, 116, 115] ∧
    translateDuplicateName
        ⟨[110, 97, 109, 101, 32, 39, 102, 111, 111, 39, 32, 97, 108, 114, 101,
        97, 100, 121, 32, 101, 120, 105, 115, 116, 115], i⟩ s =
      some ⟨PyExc_RuntimeError, PyValue.str "name 'foo' already exists"⟩ := by
  refine ⟨PyErr_SetString_utf8Encode _ _ _, ?_, rfl, by decide, ?_⟩
  · intro t ht
    exact ⟨PyErr_SetString_of_decode _ _ _ _ ht, utf8Encode_of_utf8Decode _ _ ht⟩
  · rfl

/-- Counterexample to C3 as stated: for the message made of the single byte 80,
which is not UTF-8, both translators report class UnicodeDecodeError, not
RuntimeError, and no message. -/
theorem translators_category_undecodable :
    Option.map HostError.type
        (translateOutOfBounds (⟨[0x80], 0⟩ : nix.OutOfBounds Nat) none) =
      some PyExcClass.UnicodeDecodeError ∧
    Option.map HostError.type
        (translateDuplicateName (⟨[0x80], 0⟩ : nix.DuplicateName Nat) none) =
      some PyExcClass.UnicodeDecodeError ∧
    Option.map HostError.type
        (translateOutOfBounds (⟨[0x80], 0⟩ : nix.OutOfBounds Nat) none) ≠
      some PyExc_RuntimeError ∧
    Option.bind (translateOutOfBounds (⟨[0x80], 0⟩ : nix.OutOfBounds Nat) none)
      HostError.message = none := by
  decide

/-- C3, amended: both translators report to the same host error category. For
every message, an out-of-bounds error and a duplicate-name error carrying it
are translated to identical host errors, so no function of the translated
error tells the two native kinds apart; for a message that is valid UTF-8 that
host error is the generic runtime error with the message. -/
theorem translators_same_host_error (ι : Type) (m : CString) (text : String) (i j : ι)
    (s t : PyErrIndicator) :
    translateOutOfBounds ⟨m, i⟩ s = translateDuplicateName ⟨m, j⟩ t ∧
    (¬ ∃ kindOf : PyErrIndicator → ExceptionType,
        kindOf (translateOutOfBounds ⟨m, i⟩ s) = ExceptionType.OutOfBounds ∧
        kindOf (translateDuplicateName ⟨m, j⟩ t) = ExceptionType.DuplicateName) ∧
    translateOutOfBounds ⟨utf8Encode text, i⟩ s =
      some ⟨PyExcClass.RuntimeError, PyValue.str text⟩ ∧
    translateDuplicateName ⟨utf8Encode text, j⟩ t =
      some ⟨PyExcClass.RuntimeError, PyValue.str text⟩ ∧
    (∀ text' : String, utf8Decode m = some text' →
      translateOutOfBounds ⟨m, i⟩ s = some ⟨PyExcClass.RuntimeError, PyValue.str text'⟩ ∧
      translateDuplicateName ⟨m, j⟩ t = some ⟨PyExcClass.RuntimeError, PyValue.str text'⟩) := by
  refine ⟨rfl, ?_, PyErr_SetString_utf8Encode _ _ _, PyErr_SetString_utf8Encode _ _ _, ?_⟩
  · rintro ⟨kindOf, h₁, h₂⟩
    have h : translateOutOfBounds ⟨m, i⟩ s = translateDuplicateName ⟨m, j⟩ t := rfl
    rw [h, h₂] at h₁
    exact ExceptionType.noConfusion h₁
  · intro text' ht
    exact ⟨PyErr_SetString_of_decode _ _ _ _ ht, PyErr_SetString_of_decode _ _ _ _ ht⟩

/-- C6: the translated host error depends only on the message of the native
error. Two errors of a translated kind with the same what() are translated to
the same host error, whatever else they carry and whatever the indicator held
before. -/
theorem translation_depends_only_on_message (ι : Type) (e₁ e₂ : nix.OutOfBounds ι)
    (d₁ d₂ : nix.DuplicateName ι) (s₁ s₂ : PyErrIndicator)
    (he : e₁.what = e₂.what) (hd : d₁.what = d₂.what) :
    translateOutOfBounds e₁ s₁ = translateOutOfBounds e₂ s₂ ∧
    translateDuplicateName d₁ s₁ = translateDuplicateName d₂ s₂ := by
  simp [translateOutOfBounds, translateDuplicateName, PyErr_SetString, he, hd]

/-- Witness for C6: two out-of-bounds errors and two duplicate-name errors that
agree on the message ("full", "taken") and differ in what else they carry. -/
theorem translation_depends_only_on_message_witness :
    ((⟨[102, 117, 108, 108], 1⟩ : nix.OutOfBounds Nat).info ≠
      (⟨[102, 117, 108, 108], 2⟩ : nix.OutOfBounds Nat).info) ∧
    ((⟨[116, 97, 107, 101, 110], 3⟩ : nix.DuplicateName Nat).info ≠
      (⟨[116, 97, 107, 101, 110], 4⟩ : nix.DuplicateName Nat).info) ∧
    translateOutOfBounds (⟨[102, 117, 108, 108], 1⟩ : nix.OutOfBounds Nat) none =
      translateOutOfBounds (⟨[102, 117, 108, 108], 2⟩ : nix.OutOfBounds Nat)
        (some ⟨PyExcClass.ValueError, PyValue.str "old"⟩) ∧
    translateDuplicateName (⟨[116, 97, 107, 101, 110], 3⟩ : nix.DuplicateName Nat) none =
      translateDuplicateName (⟨[116, 97, 107, 101, 110], 4⟩ : nix.DuplicateName Nat)
        (some ⟨PyExcClass.ValueError, PyValue.str "old"⟩) :=
  ⟨by decide, by decide,
    translation_depends_only_on_message Nat ⟨[102, 117, 108, 108], 1⟩
      ⟨[102, 117, 108, 108], 2⟩ ⟨[116, 97, 107, 101, 110], 3⟩ ⟨[116, 97, 107, 101, 110], 4⟩
      none (some ⟨PyExcClass.ValueError, PyValue.str "old"⟩) rfl rfl⟩

/-! ## Registration -/

/-- Counterexample to C4 as stated: after do_export, a thrown out-of-bounds error
whose what() is the single byte FF is caught and handed to its translator, but
what comes out is the decoder's UnicodeDecodeError, not a runtime error
carrying the message. -/
theorem do_export_undecodable :
    handle_exception (PyException.do_export ([] : Registry Nat))
        (NativeError.OutOfBounds ⟨[0xFF], 0⟩) none =
      some (some ⟨PyExcClass.UnicodeDecodeError, PyValue.undecodable [0xFF]⟩) ∧
    handle_exception (PyException.do_export ([] : Registry Nat))
        (NativeError.DuplicateName ⟨[0xFF], 0⟩) none =
      some (some ⟨PyExcClass.UnicodeDecodeError, PyValue.undecodable [0xFF]⟩) := by
  decide

/-- C4, amended: after do_export has run on a translator chain (whatever was
registered before), a thrown error of kind OutOfBounds and a thrown error of
kind DuplicateName are each caught by the chain and handed to their translator;
neither leaves the chain untranslated. When the message is valid UTF-8 the
result is the host runtime error carrying that message. -/
theorem do_export_translates_both (ι : Type) (chain : Registry ι)
    (e : nix.OutOfBounds ι) (d : nix.DuplicateName ι) (text : String) (i j : ι)
    (s : PyErrIndicator) :
    handle_exception (PyException.do_export chain) (NativeError.OutOfBounds e) s =
      some (translateOutOfBounds e s) ∧
    handle_exception (PyException.do_export chain) (NativeError.DuplicateName d) s =
      some (translateDuplicateName d s) ∧
    handle_exception (PyException.do_export chain) (NativeError.OutOfBounds e) s ≠ none ∧
    handle_exception (PyException.do_export chain) (NativeError.DuplicateName d) s ≠ none ∧
    handle_exception (PyException.do_export chain)
        (NativeError.OutOfBounds ⟨utf8Encode text, i⟩) s =
      some (some ⟨PyExc_RuntimeError, PyValue.str text⟩) ∧
    handle_exception (PyException.do_export chain)
        (NativeError.DuplicateName ⟨utf8Encode text, j⟩) s =
      some (some ⟨PyExc_RuntimeError, PyValue.str text⟩) ∧
    (∀ t : String, utf8Decode e.what = some t →
      handle_exception (PyException.do_export chain) (NativeError.OutOfBounds e) s =
        some (some ⟨PyExc_RuntimeError, PyValue.str t⟩)) ∧
    (∀ t : String, utf8Decode d.what = some t →
      handle_exception (PyException.do_export chain) (NativeError.DuplicateName d) s =
        some (some ⟨PyExc_RuntimeError, PyValue.str t⟩)) := by
  have h₁ : ∀ e' : nix.OutOfBounds ι,
      handle_exception (PyException.do_export chain) (NativeError.OutOfBounds e') s =
        some (translateOutOfBounds e' s) := by
    intro e'
    unfold PyException.do_export
    rw [handle_exception_register, handle_exception_register]
    rfl
  have h₂ : ∀ d' : nix.DuplicateName ι,
      handle_exception (PyException.do_export chain) (NativeError.DuplicateName d') s =
        some (translateDuplicateName d' s) := by
    intro d'
    unfold PyException.do_export
    rw [handle_exception_register]
    rfl
  refine ⟨h₁ e, h₂ d, ?_, ?_, ?_, ?_, ?_, ?_⟩
  · rw [h₁]; exact Option.some_ne_none _
  · rw [h₂]; exact Option.some_ne_none _
  · rw [h₁]; exact congrArg some (PyErr_SetString_utf8Encode _ _ _)
  · rw [h₂]; exact congrArg some (PyErr_SetString_utf8Encode _ _ _)
  · intro t ht
    rw [h₁]; exact congrArg some (PyErr_SetString_of_decode _ _ _ _ ht)
  · intro t ht
    rw [h₂]; exact congrArg some (PyErr_SetString_of_decode _ _ _ _ ht)

/-- C7: do_export adds exactly two entries to the translator chain, the first
keyed on OutOfBounds and the second on DuplicateName, and leaves the entries
already there in place. A thrown error of any other kind is caught by neither
of the two, and the chain treats it after do_export as it did before. -/
theorem do_export_exactly_two (ι : Type) (chain : Registry ι) (tag : Nat) (x : ι)
    (s : PyErrIndicator) :
    PyException.do_export chain =
      chain ++ [Handler.OutOfBounds translateOutOfBounds,
        Handler.DuplicateName translateDuplicateName] ∧
    (PyException.do_export chain).length = chain.length + 2 ∧
    List.map Handler.key (PyException.do_export chain) =
      List.map Handler.key chain ++ [ExceptionType.OutOfBounds, ExceptionType.DuplicateName] ∧
    translate_exception (Handler.OutOfBounds translateOutOfBounds) (NativeError.other tag x) s =
      none ∧
    translate_exception (Handler.DuplicateName translateDuplicateName) (NativeError.other tag x) s =
      none ∧
    handle_exception (PyException.do_export chain) (NativeError.other tag x) s =
      handle_exception chain (NativeError.other tag x) s ∧
    handle_exception (PyException.do_export ([] : Registry ι)) (NativeError.other tag x) s =
      none := by
  have hframe : ∀ c : Registry ι,
      handle_exception (PyException.do_export c) (NativeError.other tag x) s =
        handle_exception c (NativeError.other tag x) s := by
    intro c
    unfold PyException.do_export
    rw [handle_exception_register, handle_exception_register]
    rfl
  refine ⟨do_export_eq_append chain, ?_, ?_, rfl, rfl, hframe chain, ?_⟩
  · simp [do_export_eq_append]
  · simp [do_export_eq_append, Handler.key]
  · rw [hframe]; rfl

/-- C8: the order of the two registrations of do_export is irrelevant. On any
chain, registering the OutOfBounds translator before the DuplicateName
translator, as do_export does, or after it gives chains that handle every
thrown error, of either kind or of any other, with the same result. -/
theorem do_export_order_irrelevant (ι : Type) (chain : Registry ι) (x : NativeError ι)
    (s : PyErrIndicator) :
    handle_exception (PyException.do_export chain) x s =
      handle_exception
        (register_exception_translator (Handler.OutOfBounds translateOutOfBounds)
          (register_exception_translator (Handler.DuplicateName translateDuplicateName) chain))
        x s := by
  unfold PyException.do_export
  rw [handle_exception_register, handle_exception_register, handle_exception_register,
    handle_exception_register]
  cases x <;> rfl

/-- C9: emptyMessage returns true exactly for the message of length zero, and it
has no effect on translation: whatever emptyMessage says of the message, both
translators, alone and through the chain built by do_export, hand the message
to PyErr_SetString unconditionally and pass its text through to a runtime
error, the empty message as the empty message. -/
theorem emptyMessage_iff_and_unused (ι : Type) (m : CString) (text : String) (i j : ι)
    (chain : Registry ι) (s : PyErrIndicator) :
    (emptyMessage m = true ↔ m.length = 0) ∧
    (emptyMessage m = true ↔ m = []) ∧
    (emptyMessage (utf8Encode text) = true ↔ text.length = 0) ∧
    (emptyMessage (utf8Encode text) = true ↔ text = "") ∧
    translateOutOfBounds ⟨m, i⟩ s = PyErr_SetString PyExc_RuntimeError m s ∧
    translateDuplicateName ⟨m, j⟩ s = PyErr_SetString PyExc_RuntimeError m s ∧
    translateOutOfBounds ⟨utf8Encode text, i⟩ s =
      some ⟨PyExc_RuntimeError, PyValue.str text⟩ ∧
    translateDuplicateName ⟨utf8Encode text, j⟩ s =
      some ⟨PyExc_RuntimeError, PyValue.str text⟩ ∧
    handle_exception (PyException.do_export chain)
        (NativeError.OutOfBounds ⟨utf8Encode text, i⟩) s =
      some (some ⟨PyExc_RuntimeError, PyValue.str text⟩) ∧
    handle_exception (PyException.do_export chain)
        (NativeError.DuplicateName ⟨utf8Encode text, j⟩) s =
      some (some ⟨PyExc_RuntimeError, PyValue.str text⟩) ∧
    emptyMessage [] = true ∧
    emptyMessage (utf8Encode "") = true ∧
    translateOutOfBounds ⟨[], i⟩ s = some ⟨PyExc_RuntimeError, PyValue.str ""⟩ ∧
    translateDuplicateName ⟨[], j⟩ s = some ⟨PyExc_RuntimeError, PyValue.str ""⟩ ∧
    handle_exception (PyException.do_export chain) (NativeError.OutOfBounds ⟨[], i⟩) s =
      some (some ⟨PyExc_RuntimeError, PyValue.str ""⟩) ∧
    handle_exception (PyException.do_export chain) (NativeError.DuplicateName ⟨[], j⟩) s =
      some (some ⟨PyExc_RuntimeError, PyValue.str ""⟩) := by
  have hlen : emptyMessage m = true ↔ m.length = 0 := by
    simp [emptyMessage, strlen]
  have hnil : emptyMessage m = true ↔ m = [] := by
    simp [emptyMessage, strlen]
  have htext : emptyMessage (utf8Encode text) = true ↔ text = "" := by
    have h : emptyMessage (utf8Encode text) = true ↔ utf8Encode text = [] := by
      simp [emptyMessage, strlen]
    exact h.trans (utf8Encode_eq_nil text)
  have h₁ : ∀ e' : nix.OutOfBounds ι,
      handle_exception (PyException.do_export chain) (NativeError.OutOfBounds e') s =
        some (translateOutOfBounds e' s) := by
    intro e'
    unfold PyException.do_export
    rw [handle_exception_register, handle_exception_register]
    rfl
  have h₂ : ∀ d' : nix.DuplicateName ι,
      handle_exception (PyException.do_export chain) (NativeError.DuplicateName d') s =
        some (translateDuplicateName d' s) := by
    intro d'
    unfold PyException.do_export
    rw [handle_exception_register]
    rfl
  refine ⟨hlen, hnil, htext.trans (length_eq_zero_iff_eq_empty text).symm, htext, rfl, rfl,
    PyErr_SetString_utf8Encode _ _ _, PyErr_SetString_utf8Encode _ _ _, ?_, ?_,
    by decide, by decide, rfl, rfl, ?_, ?_⟩
  · rw [h₁]; exact congrArg some (PyErr_SetString_utf8Encode _ _ _)
  · rw [h₂]; exact congrArg some (PyErr_SetString_utf8Encode _ _ _)
  · rw [h₁]; rfl
  · rw [h₂]; rfl

end nixpy
